import Mathlib

/-
  Verification of the template-detection and coordinate-mapping core of
  app.js (browser AR demo).

  Shallow embedding conventions:
  - Canvas pixel data (getImageData) is byte-valued RGBA; we model an image
    as a width, a height and a flat pixel function returning an RGB triple
    of bytes (Fin 256); the alpha channel is never read by the code.
  - JS number arithmetic on scores and screen coordinates is idealised as
    exact rational arithmetic; machine integers are Nat.
  - The JS value Number.POSITIVE_INFINITY, used only to initialise the best
    score in findTemplate (line 210), is modelled by none in an Option score;
    the only operation the code performs on it is the comparison
    mae < best.score, true for every finite mae, mirrored by scoreLt.
  - A JS null box is none : Option Box.
-/

namespace App

/- Processing constants from app.js lines 28-32. -/

def PROC_W : ℕ := 192

def STEP : ℕ := 4

def LOCK_FRAMES : ℤ := 6

def MSE_THRESHOLD : ℚ := 2600

/-- An RGB bitmap as read back via getImageData: byte triples indexed by
flat pixel index i = y * width + x (the source reads data[(y*w+x)*4 + c]). -/
structure Img where
  w : ℕ
  h : ℕ
  px : ℕ → Fin 256 × Fin 256 × Fin 256

/-- Grayscale conversion of one RGB triple, mirroring
`(r * 0.299 + g * 0.587 + b * 0.114) | 0` from app.js lines 203 and 225,
idealised over exact rationals: the value is nonnegative, so the `|0`
truncation is the floor, and floor((299r + 587g + 114b)/1000) is Nat
division by 1000. -/
def gray (p : Fin 256 × Fin 256 × Fin 256) : ℕ :=
  (299 * p.1.val + 587 * p.2.1.val + 114 * p.2.2.val) / 1000

/-- Luminance of the frame pixel at (x, y): app.js lines 221-225 read
fData at byte index (fy*fw+fx)*4 and convert. -/
def frameGray (f : Img) (x y : ℕ) : ℕ := gray (f.px (y * f.w + x))

/-- The precomputed grayscale template of app.js lines 197-206: tGray[i] is
the conversion of template pixel i.  The Uint8ClampedArray store is exact
because the converted value always lies in [0, 255] (lemma gray_le below),
so no clamping occurs. -/
def tGrayAt (t : Img) (i : ℕ) : ℕ := gray (t.px i)

/-- The interior subsample coordinates of a window axis of length n,
mirroring `for (v = 0; v < n; v += 2)`: the values 2i with 2i < n. -/
def subCoords (n : ℕ) : List ℕ := (List.range ((n + 1) / 2)).map (fun i => 2 * i)

/-- Sum of absolute luminance differences over the subsampled interior of
the window at offset (x, y): the accumulator `sum` of app.js lines 214-231. -/
def windowSum (f t : Img) (x y : ℕ) : ℤ :=
  ((subCoords t.h).map (fun ty =>
    ((subCoords t.w).map (fun tx =>
      |(frameGray f (x + tx) (y + ty) : ℤ) - (tGrayAt t (ty * t.w + tx) : ℤ)|)).sum)).sum

/-- The loop counter `cnt` of app.js line 229 after the window scan: one
count per subsampled interior point. -/
def windowCnt (t : Img) : ℕ := ((t.h + 1) / 2) * ((t.w + 1) / 2)

/-- The window score `mae = sum / cnt` of app.js line 232. -/
def mae (f t : Img) (x y : ℕ) : ℚ := (windowSum f t x y : ℚ) / (windowCnt t : ℚ)

/-- A match box {x, y, w, h} in processing space (app.js line 239). -/
structure Box where
  x : ℕ
  y : ℕ
  w : ℕ
  h : ℕ
deriving DecidableEq

/-- The running best record of app.js line 210; score none models the
Number.POSITIVE_INFINITY initialisation and box none models null. -/
structure Best where
  x : ℕ
  y : ℕ
  score : Option ℚ
  box : Option Box
deriving DecidableEq

/-- The comparison `mae < best.score` of app.js line 234; every finite mae
is below the infinite sentinel. -/
def scoreLt (q : ℚ) : Option ℚ → Bool
  | none => true
  | some s => decide (q < s)

/-- One step of the best-tracking conditional of app.js lines 234-241. -/
def updateBest (f t : Img) (b : Best) (p : ℕ × ℕ) : Best :=
  if scoreLt (mae f t p.1 p.2) b.score then
    { x := p.1, y := p.2, score := some (mae f t p.1 p.2),
      box := some ⟨p.1, p.2, t.w, t.h⟩ }
  else b

/-- The offsets visited by `for (v = 0; v <= limit; v += step)` where the
JS limit fh - th or fw - tw may be negative (then the body never runs). -/
def scanOffsets (limit : ℤ) (step : ℕ) : List ℕ :=
  if limit < 0 then [] else (List.range (limit.toNat / step + 1)).map (fun i => i * step)

/-- All window offsets visited by the nested scan of app.js lines 211-212,
in scan order: y outer, x inner, row-major. -/
def scanGrid (f t : Img) (step : ℕ) : List (ℕ × ℕ) :=
  (scanOffsets ((f.h : ℤ) - (t.h : ℤ)) step).flatMap
    (fun y => (scanOffsets ((f.w : ℤ) - (t.w : ℤ)) step).map (fun x => (x, y)))

/-- The initial best record of app.js line 210:
`{ x: 0, y: 0, score: Number.POSITIVE_INFINITY, box: null }`. -/
def initBest : Best := { x := 0, y := 0, score := none, box := none }

/-- The best-update fold over a list of window offsets; the nested for
loops of app.js lines 211-243 traverse exactly the scan grid in its order. -/
def foldBest (f t : Img) (l : List (ℕ × ℕ)) : Best := l.foldl (updateBest f t) initBest

/-- findTemplate of app.js lines 187-246. -/
def findTemplate (f t : Img) (step : ℕ) : Best := foldBest f t (scanGrid f t step)

/- Detection stabiliser: the module-level variables stableCount and lastBox
of app.js lines 37 and 39, mutated once per tick at lines 155-160. -/

structure DetState where
  stableCount : ℤ
  lastBox : Option Box
deriving DecidableEq

/-- The tick hit condition `match && match.score < MSE_THRESHOLD` of app.js
line 155; findTemplate always returns an object (truthy), so the condition
reduces to the score test, which is false on the infinite sentinel. -/
def isHit (m : Best) : Bool :=
  match m.score with
  | none => false
  | some s => decide (s < MSE_THRESHOLD)

/-- One stabiliser tick, app.js lines 155-160: on a hit increment the
counter saturating at LOCK_FRAMES and record the match box as lastBox; on a
miss decrement the counter flooring at 0 and leave lastBox unchanged. -/
def stabTick (m : Best) (st : DetState) : DetState :=
  if isHit m then
    { stableCount := min LOCK_FRAMES (st.stableCount + 1), lastBox := m.box }
  else
    { stableCount := max 0 (st.stableCount - 1), lastBox := st.lastBox }

/-- The derived flag `detected = stableCount >= LOCK_FRAMES - 1` of
app.js line 162. -/
def detectedOf (st : DetState) : Bool := decide (LOCK_FRAMES - 1 ≤ st.stableCount)

/-- A sequence of stabiliser ticks fed by the per-tick match results. -/
def stabRun (ms : List Best) (st : DetState) : DetState :=
  ms.foldl (fun s m => stabTick m s) st

/- Coordinate mapper. -/

/-- A screen rectangle in viewport pixels (app.js lines 281-288). -/
structure ScreenRect where
  x : ℚ
  y : ℚ
  w : ℚ
  h : ℚ
deriving DecidableEq

/-- positionOverlay of app.js lines 248-289, as the pure function from the
processing-space box, the processing canvas size, the video intrinsic size
and the element client rectangle to the screen rectangle written to the
overlay style. -/
def positionOverlay (box : Box) (procW procH : ℚ) (vw vh : ℚ)
    (elLeft elTop elW elH : ℚ) : ScreenRect :=
  let srcRatio := vw / vh
  let elRatio := elW / elH
  let renderW := if srcRatio > elRatio then elW else elH * srcRatio
  let renderH := if srcRatio > elRatio then elW / srcRatio else elH
  let offsetX := if srcRatio > elRatio then 0 else (elW - elH * srcRatio) / 2
  let offsetY := if srcRatio > elRatio then (elH - elW / srcRatio) / 2 else 0
  let sx := renderW / procW
  let sy := renderH / procH
  { x := elLeft + offsetX + (box.x : ℚ) * sx
    y := elTop + offsetY + (box.y : ℚ) * sy
    w := (box.w : ℚ) * sx
    h := (box.h : ℚ) * sy }

/-- The contain-fit mapping exactly as the specification words it: compare
vw/vh with elWidth/elHeight, fill the matching axis, center the letterbox
offset on the other axis, scale by rendered/processing, then translate. -/
def containMapSpec (bx by' bw bh : ℚ) (vw vh : ℚ)
    (elLeft elTop elW elH : ℚ) (procW procH : ℚ) : ScreenRect :=
  if vw / vh > elW / elH then
    let renderedW := elW
    let renderedH := elW / (vw / vh)
    let sx := renderedW / procW
    let sy := renderedH / procH
    { x := elLeft + 0 + bx * sx
      y := elTop + (elH - renderedH) / 2 + by' * sy
      w := bw * sx
      h := bh * sy }
  else
    let renderedH := elH
    let renderedW := elH * (vw / vh)
    let sx := renderedW / procW
    let sy := renderedH / procH
    { x := elLeft + (elW - renderedW) / 2 + bx * sx
      y := elTop + 0 + by' * sy
      w := bw * sx
      h := bh * sy }

/- Concrete instances used by witnesses and the counterexample. -/

/-- A 1x1 template whose single pixel is mid gray (luminance 7). -/
def cT : Img := ⟨1, 1, fun _ => (7, 7, 7)⟩

/-- A 2x2 frame that is black except for an exact copy of cT at (1, 1). -/
def cF : Img := ⟨2, 2, fun i => if i = 3 then (7, 7, 7) else (0, 0, 0)⟩

/-- A 2x2 template. -/
def cT2 : Img := ⟨2, 2, fun _ => (7, 7, 7)⟩

/-- A 1x1 frame, strictly smaller than cT2 in both dimensions. -/
def cSmall : Img := ⟨1, 1, fun _ => (0, 0, 0)⟩

/-- A match result whose score 100 is below the threshold: a hit. -/
def hitB : Best := ⟨3, 4, some 100, some ⟨3, 4, 64, 64⟩⟩

/-- A match result whose score 9000 is above the threshold: a miss. -/
def missB : Best := ⟨0, 0, some 9000, none⟩

/- Helper lemmas. -/

/-- Grayscale output never exceeds 255, so the Uint8ClampedArray store of
tGray in app.js line 204 never clamps. -/
lemma gray_le (p : Fin 256 × Fin 256 × Fin 256) : gray p ≤ 255 := by
  rw [gray]
  have h1 := p.1.isLt
  have h2 := p.2.1.isLt
  have h3 := p.2.2.isLt
  omega

lemma scanOffsets_neg (limit : ℤ) (step : ℕ) (h : limit < 0) :
    scanOffsets limit step = [] := by
  rw [scanOffsets, if_pos h]

lemma scanGrid_small (f t : Img) (step : ℕ) (h : f.w < t.w ∨ f.h < t.h) :
    scanGrid f t step = [] := by
  rcases h with h | h
  · rw [scanGrid, scanOffsets_neg ((f.w : ℤ) - (t.w : ℤ)) step (by omega)]
    simp
  · rw [scanGrid, scanOffsets_neg ((f.h : ℤ) - (t.h : ℤ)) step (by omega)]
    simp

lemma scanOffsets_nonneg_ne_nil (limit : ℤ) (step : ℕ) (h : 0 ≤ limit) :
    scanOffsets limit step ≠ [] := by
  rw [scanOffsets, if_neg (by omega)]
  simp [List.range_succ]

lemma scanGrid_ne_nil (f t : Img) (step : ℕ) (hw : t.w ≤ f.w) (hh : t.h ≤ f.h) :
    scanGrid f t step ≠ [] := by
  rw [scanGrid]
  intro hnil
  rw [List.flatMap_eq_nil_iff] at hnil
  have hy := scanOffsets_nonneg_ne_nil ((f.h : ℤ) - (t.h : ℤ)) step (by omega)
  rcases List.exists_mem_of_ne_nil _ hy with ⟨y, hyy⟩
  have := hnil _ hyy
  rw [List.map_eq_nil_iff] at this
  exact scanOffsets_nonneg_ne_nil ((f.w : ℤ) - (t.w : ℤ)) step (by omega) this

lemma mem_scanOffsets (v : ℕ) (limit : ℤ) (step : ℕ) (h : v ∈ scanOffsets limit step) :
    (v : ℤ) ≤ limit ∧ step ∣ v := by
  rw [scanOffsets] at h
  split at h
  · simp at h
  · rcases List.mem_map.mp h with ⟨i, hi, rfl⟩
    rw [List.mem_range] at hi
    constructor
    · have h1 : i ≤ limit.toNat / step := by omega
      have h2 : i * step ≤ (limit.toNat / step) * step :=
        Nat.mul_le_mul_right _ h1
      have h3 : (limit.toNat / step) * step ≤ limit.toNat := Nat.div_mul_le_self _ _
      have h4 : (i * step : ℤ) ≤ (limit.toNat : ℤ) := by exact_mod_cast le_trans h2 h3
      rwa [Int.toNat_of_nonneg (by omega)] at h4
    · exact ⟨i, Nat.mul_comm i step⟩

lemma mem_scanGrid (f t : Img) (step : ℕ) (p : ℕ × ℕ) (h : p ∈ scanGrid f t step) :
    (p.1 : ℤ) ≤ (f.w : ℤ) - (t.w : ℤ) ∧ (p.2 : ℤ) ≤ (f.h : ℤ) - (t.h : ℤ) ∧
      step ∣ p.1 ∧ step ∣ p.2 := by
  rw [scanGrid, List.mem_flatMap] at h
  rcases h with ⟨y, hy, hp⟩
  rcases List.mem_map.mp hp with ⟨x, hx, rfl⟩
  have h1 := mem_scanOffsets x _ step hx
  have h2 := mem_scanOffsets y _ step hy
  exact ⟨h1.1, h2.1, h1.2, h2.2⟩

lemma subCoords_lt (n v : ℕ) (h : v ∈ subCoords n) : v < n := by
  rw [subCoords] at h
  rcases List.mem_map.mp h with ⟨i, hi, rfl⟩
  rw [List.mem_range] at hi
  omega

lemma windowSum_nonneg (f t : Img) (x y : ℕ) : 0 ≤ windowSum f t x y := by
  rw [windowSum]
  apply List.sum_nonneg
  intro a ha
  rcases List.mem_map.mp ha with ⟨ty, _, rfl⟩
  apply List.sum_nonneg
  intro b hb
  rcases List.mem_map.mp hb with ⟨tx, _, rfl⟩
  exact abs_nonneg _

lemma mae_nonneg (f t : Img) (x y : ℕ) : 0 ≤ mae f t x y := by
  rw [mae]
  apply div_nonneg _ (by positivity)
  exact_mod_cast windowSum_nonneg f t x y

/-- A window holding an exact pixel copy of the template scores zero. -/
lemma mae_copy_zero (f t : Img) (x0 y0 : ℕ)
    (hcopy : ∀ tx < t.w, ∀ ty < t.h,
      f.px ((y0 + ty) * f.w + (x0 + tx)) = t.px (ty * t.w + tx)) :
    mae f t x0 y0 = 0 := by
  have hz : windowSum f t x0 y0 = 0 := by
    rw [windowSum]
    apply List.sum_eq_zero
    intro a ha
    rcases List.mem_map.mp ha with ⟨ty, hty, rfl⟩
    apply List.sum_eq_zero
    intro b hb
    rcases List.mem_map.mp hb with ⟨tx, htx, rfl⟩
    rw [frameGray, tGrayAt, hcopy tx (subCoords_lt _ _ htx) ty (subCoords_lt _ _ hty)]
    simp
  rw [mae, hz]
  simp

/-- The strict-improvement fold keeps the first minimum of the list: either
the list is empty and the fold is the initial sentinel record, or the list
splits around the returned offset, every earlier offset scoring strictly
worse and every later offset scoring no better. -/
lemma foldBest_characterization (f t : Img) (l : List (ℕ × ℕ)) :
    (l = [] ∧ foldBest f t l = initBest) ∨
    (∃ l1 p l2, l = l1 ++ p :: l2 ∧
      foldBest f t l =
        ⟨p.1, p.2, some (mae f t p.1 p.2), some ⟨p.1, p.2, t.w, t.h⟩⟩ ∧
      (∀ q ∈ l1, mae f t p.1 p.2 < mae f t q.1 q.2) ∧
      (∀ q ∈ l2, mae f t p.1 p.2 ≤ mae f t q.1 q.2)) := by
  induction l using List.reverseRecOn with
  | nil => exact Or.inl ⟨rfl, rfl⟩
  | append_singleton l a ih =>
    right
    have hfold : foldBest f t (l ++ [a]) = updateBest f t (foldBest f t l) a := by
      rw [foldBest, foldBest, List.foldl_append, List.foldl_cons, List.foldl_nil]
    rcases ih with ⟨hnil, hinit⟩ | ⟨l1, p, l2, hsplit, hval, hl1, hl2⟩
    · subst hnil
      refine ⟨[], a, [], by simp, ?_, by simp, by simp⟩
      rw [hfold, hinit, updateBest]
      simp [initBest, scoreLt]
    · subst hsplit
      by_cases hlt : mae f t a.1 a.2 < mae f t p.1 p.2
      · refine ⟨l1 ++ p :: l2, a, [], by simp, ?_, ?_, by simp⟩
        · rw [hfold, hval, updateBest]
          simp [scoreLt, hlt]
        · intro q hq
          rcases List.mem_append.mp hq with hq | hq
          · exact lt_trans hlt (hl1 q hq)
          · rcases List.mem_cons.mp hq with rfl | hq
            · exact hlt
            · exact lt_of_lt_of_le hlt (hl2 q hq)
      · refine ⟨l1, p, l2 ++ [a], by simp, ?_, hl1, ?_⟩
        · rw [hfold, hval, updateBest]
          simp [scoreLt, hlt]
        · intro q hq
          rcases List.mem_append.mp hq with hq | hq
          · exact hl2 q hq
          · rcases List.mem_cons.mp hq with rfl | hq
            · exact le_of_not_lt hlt
            · simp at hq

/- Evaluation helpers: rational division does not reduce inside the kernel,
so concrete mae values and concrete findTemplate runs are established
through the following unfolding lemmas. -/

lemma updateBest_none (f t : Img) (b : Best) (p : ℕ × ℕ) (hs : b.score = none) :
    updateBest f t b p =
      ⟨p.1, p.2, some (mae f t p.1 p.2), some ⟨p.1, p.2, t.w, t.h⟩⟩ := by
  rw [updateBest, hs]
  simp [scoreLt]

lemma updateBest_lt (f t : Img) (b : Best) (p : ℕ × ℕ) (s : ℚ) (hs : b.score = some s)
    (h : mae f t p.1 p.2 < s) :
    updateBest f t b p =
      ⟨p.1, p.2, some (mae f t p.1 p.2), some ⟨p.1, p.2, t.w, t.h⟩⟩ := by
  rw [updateBest, hs]
  simp [scoreLt, h]

lemma updateBest_ge (f t : Img) (b : Best) (p : ℕ × ℕ) (s : ℚ) (hs : b.score = some s)
    (h : ¬ mae f t p.1 p.2 < s) : updateBest f t b p = b := by
  rw [updateBest, hs]
  simp [scoreLt, h]

lemma grid_cFcT : scanGrid cF cT 1 = [(0, 0), (1, 0), (0, 1), (1, 1)] := by decide

lemma mae_cFcT_vals :
    mae cF cT 0 0 = 7 ∧ mae cF cT 1 0 = 7 ∧ mae cF cT 0 1 = 7 ∧ mae cF cT 1 1 = 0 := by
  refine ⟨?_, ?_, ?_, ?_⟩
  · rw [mae, show windowSum cF cT 0 0 = 7 from by decide,
      show windowCnt cT = 1 from by decide]
    norm_num
  · rw [mae, show windowSum cF cT 1 0 = 7 from by decide,
      show windowCnt cT = 1 from by decide]
    norm_num
  · rw [mae, show windowSum cF cT 0 1 = 7 from by decide,
      show windowCnt cT = 1 from by decide]
    norm_num
  · rw [mae, show windowSum cF cT 1 1 = 0 from by decide]
    norm_num

lemma mae_cFcT_pos :
    ∀ q ∈ scanGrid cF cT 1, q ≠ (1, 1) → 0 < mae cF cT q.1 q.2 := by
  intro q hq hne
  rw [grid_cFcT] at hq
  simp only [List.mem_cons, List.not_mem_nil, or_false] at hq
  rcases hq with rfl | rfl | rfl | rfl
  · exact lt_of_lt_of_eq (by norm_num) mae_cFcT_vals.1.symm
  · exact lt_of_lt_of_eq (by norm_num) mae_cFcT_vals.2.1.symm
  · exact lt_of_lt_of_eq (by norm_num) mae_cFcT_vals.2.2.1.symm
  · exact absurd rfl hne

lemma findTemplate_cFcT : findTemplate cF cT 1 = ⟨1, 1, some 0, some ⟨1, 1, 1, 1⟩⟩ := by
  have h1 := mae_cFcT_vals.1
  have h2 := mae_cFcT_vals.2.1
  have h3 := mae_cFcT_vals.2.2.1
  have h4 := mae_cFcT_vals.2.2.2
  rw [findTemplate, grid_cFcT, foldBest, List.foldl_cons, List.foldl_cons,
    List.foldl_cons, List.foldl_cons, List.foldl_nil]
  rw [updateBest_none cF cT initBest (0, 0) rfl]
  rw [updateBest_ge cF cT _ (1, 0) (mae cF cT 0 0) rfl (by rw [h1, h2]; norm_num)]
  rw [updateBest_ge cF cT _ (0, 1) (mae cF cT 0 0) rfl (by rw [h1, h3]; norm_num)]
  rw [updateBest_lt cF cT _ (1, 1) (mae cF cT 0 0) rfl (by rw [h1, h4]; norm_num)]
  rw [h4]
  rfl

lemma stabRun_cons (m : Best) (ms : List Best) (st : DetState) :
    stabRun (m :: ms) st = stabRun ms (stabTick m st) := rfl

/-- Under consecutive hits the counter follows min LOCK_FRAMES (start + n). -/
lemma stabRun_hit_count (ms : List Best) :
    ∀ st : DetState, (∀ m ∈ ms, isHit m = true) →
      0 ≤ st.stableCount → st.stableCount ≤ LOCK_FRAMES →
      (stabRun ms st).stableCount = min LOCK_FRAMES (st.stableCount + ms.length) := by
  induction ms with
  | nil =>
    intro st _ h0 h6
    simp only [stabRun, List.foldl_nil, List.length_nil, Nat.cast_zero, add_zero]
    omega
  | cons m ms ih =>
    intro st hall h0 h6
    rw [stabRun_cons]
    have hm : isHit m = true := hall m (List.mem_cons_self _ _)
    have hstep : stabTick m st = ⟨min LOCK_FRAMES (st.stableCount + 1), m.box⟩ := by
      simp [stabTick, hm]
    rw [hstep]
    have := ih ⟨min LOCK_FRAMES (st.stableCount + 1), m.box⟩
      (fun q hq => hall q (List.mem_cons_of_mem _ hq))
      (by simp only [LOCK_FRAMES] at *; omega) (by simp only [LOCK_FRAMES] at *; omega)
    rw [this]
    simp only [List.length_cons, LOCK_FRAMES] at *
    push_cast
    omega

lemma stabTick_count_bounds (m : Best) (st : DetState)
    (h0 : 0 ≤ st.stableCount) (h6 : st.stableCount ≤ LOCK_FRAMES) :
    0 ≤ (stabTick m st).stableCount ∧ (stabTick m st).stableCount ≤ LOCK_FRAMES := by
  rw [stabTick]
  split <;> simp only [LOCK_FRAMES] at * <;> constructor <;> omega

lemma stabRun_count_bounds (ms : List Best) :
    ∀ st : DetState, 0 ≤ st.stableCount → st.stableCount ≤ LOCK_FRAMES →
      0 ≤ (stabRun ms st).stableCount ∧ (stabRun ms st).stableCount ≤ LOCK_FRAMES := by
  induction ms with
  | nil => intro st h0 h6; exact ⟨h0, h6⟩
  | cons m ms ih =>
    intro st h0 h6
    have hb := stabTick_count_bounds m st h0 h6
    exact ih (stabTick m st) hb.1 hb.2

/- Claim theorems. -/

/-- Claim C1, counterexample to the claim as stated: the claim asserts that
a frame smaller than the template is rejected by an explicit dimension
check so that no zero-iteration scan passes the infinite-score sentinel
downstream.  In the code there is no such check: on a 1x1 frame with a 2x2
template, findTemplate performs a zero-iteration scan and returns exactly
its initialisation record, whose score is the POSITIVE_INFINITY sentinel
(modelled none) and whose box is null, and that sentinel record is the
value handed to the caller. -/
theorem findTemplate_small_sentinel_returned :
    cSmall.w < cT2.w ∧ cSmall.h < cT2.h ∧
    findTemplate cSmall cT2 STEP = initBest ∧
    (findTemplate cSmall cT2 STEP).score = none ∧
    (findTemplate cSmall cT2 STEP).box = none := by
  decide

/-- Claim C1, amended: for every frame strictly smaller than the template
in width or height, the scan of findTemplate runs zero iterations and the
function returns its initialisation record (score the infinite sentinel,
box null); there is no explicit dimension check, but downstream the
threshold test on the infinite sentinel fails, the tick counts as a miss,
and lastBox is left unchanged, so no spurious box is ever produced. -/
theorem findTemplate_small_frame (f t : Img) (step : ℕ) (st : DetState)
    (h : f.w < t.w ∨ f.h < t.h) :
    findTemplate f t step = initBest ∧
    isHit (findTemplate f t step) = false ∧
    (stabTick (findTemplate f t step) st).lastBox = st.lastBox := by
  have h1 : findTemplate f t step = initBest := by
    rw [findTemplate, scanGrid_small f t step h]
    rfl
  refine ⟨h1, by rw [h1]; rfl, ?_⟩
  rw [h1, stabTick]
  simp [isHit, initBest]

/-- Witness for the amended claim C1 at the concrete small frame. -/
theorem findTemplate_small_frame_witness :
    (cSmall.w < cT2.w ∨ cSmall.h < cT2.h) ∧
    (findTemplate cSmall cT2 4 = initBest ∧
      isHit (findTemplate cSmall cT2 4) = false ∧
      (stabTick (findTemplate cSmall cT2 4) ⟨3, some ⟨0, 0, 64, 64⟩⟩).lastBox =
        (⟨3, some ⟨0, 0, 64, 64⟩⟩ : DetState).lastBox) :=
  ⟨by decide, findTemplate_small_frame cSmall cT2 4 ⟨3, some ⟨0, 0, 64, 64⟩⟩ (by decide)⟩

/-- Claim C2: positionOverlay reproduces the contain-fit mapping exactly as
the specification words it, for every box, video resolution, element
rectangle and processing size; in particular a (0,0,64,64) box in a 192x108
processing canvas shown as 1920x1080 video in a 360x360 element maps to a
120 by 120 screen rectangle. -/
theorem positionOverlay_contain_fit :
    (∀ (box : Box) (procW procH vw vh elLeft elTop elW elH : ℚ),
      positionOverlay box procW procH vw vh elLeft elTop elW elH =
        containMapSpec (box.x : ℚ) (box.y : ℚ) (box.w : ℚ) (box.h : ℚ)
          vw vh elLeft elTop elW elH procW procH) ∧
    (∀ elLeft elTop : ℚ,
      (positionOverlay ⟨0, 0, 64, 64⟩ 192 108 1920 1080 elLeft elTop 360 360).w = 120 ∧
      (positionOverlay ⟨0, 0, 64, 64⟩ 192 108 1920 1080 elLeft elTop 360 360).h = 120) := by
  constructor
  · intro box procW procH vw vh elLeft elTop elW elH
    by_cases hc : vw / vh > elW / elH <;>
      simp [positionOverlay, containMapSpec, hc]
  · intro elLeft elTop
    constructor <;> norm_num [positionOverlay]

/-- Claim C3: starting from counter 0, after n consecutive below-threshold
hits the counter is min LOCK_FRAMES n, and the derived locked flag is true
exactly when n is at least LOCK_FRAMES - 1 = 5, and not before. -/
theorem locked_after_five_hits (ms : List Best) (h : ∀ m ∈ ms, isHit m = true) :
    (stabRun ms ⟨0, none⟩).stableCount = min LOCK_FRAMES (ms.length : ℤ) ∧
    (detectedOf (stabRun ms ⟨0, none⟩) = true ↔ 5 ≤ ms.length) := by
  have hc := stabRun_hit_count ms ⟨0, none⟩ h (by simp) (by simp [LOCK_FRAMES])
  simp only at hc
  rw [zero_add] at hc
  refine ⟨hc, ?_⟩
  rw [detectedOf, decide_eq_true_iff, hc]
  simp only [LOCK_FRAMES]
  omega

/-- Witness for claim C3 with five concrete hits. -/
theorem locked_after_five_hits_witness :
    (∀ m ∈ [hitB, hitB, hitB, hitB, hitB], isHit m = true) ∧
    ((stabRun [hitB, hitB, hitB, hitB, hitB] ⟨0, none⟩).stableCount =
        min LOCK_FRAMES (([hitB, hitB, hitB, hitB, hitB].length : ℕ) : ℤ) ∧
      (detectedOf (stabRun [hitB, hitB, hitB, hitB, hitB] ⟨0, none⟩) = true ↔
        5 ≤ [hitB, hitB, hitB, hitB, hitB].length)) :=
  ⟨by decide, locked_after_five_hits _ (by decide)⟩

/-- Claim C4: from the fully locked state (counter LOCK_FRAMES = 6), one
miss leaves the flag locked at counter 5, and the second consecutive miss
drops the counter to 4 and unlocks. -/
theorem unlock_after_two_misses (m1 m2 : Best) (lb : Option Box)
    (h1 : isHit m1 = false) (h2 : isHit m2 = false) :
    (stabTick m1 ⟨LOCK_FRAMES, lb⟩).stableCount = 5 ∧
    detectedOf (stabTick m1 ⟨LOCK_FRAMES, lb⟩) = true ∧
    (stabTick m2 (stabTick m1 ⟨LOCK_FRAMES, lb⟩)).stableCount = 4 ∧
    detectedOf (stabTick m2 (stabTick m1 ⟨LOCK_FRAMES, lb⟩)) = false := by
  simp [stabTick, h1, h2, detectedOf, LOCK_FRAMES]

/-- Witness for claim C4 with a concrete miss result. -/
theorem unlock_after_two_misses_witness :
    isHit missB = false ∧
    ((stabTick missB ⟨LOCK_FRAMES, some ⟨3, 4, 64, 64⟩⟩).stableCount = 5 ∧
      detectedOf (stabTick missB ⟨LOCK_FRAMES, some ⟨3, 4, 64, 64⟩⟩) = true ∧
      (stabTick missB (stabTick missB ⟨LOCK_FRAMES, some ⟨3, 4, 64, 64⟩⟩)).stableCount = 4 ∧
      detectedOf (stabTick missB (stabTick missB ⟨LOCK_FRAMES, some ⟨3, 4, 64, 64⟩⟩)) = false) :=
  ⟨by decide, unlock_after_two_misses missB missB (some ⟨3, 4, 64, 64⟩) (by decide) (by decide)⟩

/-- Claim C5: from any state with counter in [0, LOCK_FRAMES], the counter
stays in [0, LOCK_FRAMES] after one tick of any result and after any whole
sequence of ticks: the hit increment saturates at LOCK_FRAMES and the miss
decrement floors at 0. -/
theorem stableCount_bounds (m : Best) (ms : List Best) (st : DetState)
    (h0 : 0 ≤ st.stableCount) (h6 : st.stableCount ≤ LOCK_FRAMES) :
    (0 ≤ (stabTick m st).stableCount ∧ (stabTick m st).stableCount ≤ LOCK_FRAMES) ∧
    (0 ≤ (stabRun ms st).stableCount ∧ (stabRun ms st).stableCount ≤ LOCK_FRAMES) :=
  ⟨stabTick_count_bounds m st h0 h6, stabRun_count_bounds ms st h0 h6⟩

/-- Witness for claim C5 at a concrete mid-range state. -/
theorem stableCount_bounds_witness :
    (0 ≤ (⟨2, none⟩ : DetState).stableCount ∧
      (⟨2, none⟩ : DetState).stableCount ≤ LOCK_FRAMES) ∧
    ((0 ≤ (stabTick missB ⟨2, none⟩).stableCount ∧
        (stabTick missB ⟨2, none⟩).stableCount ≤ LOCK_FRAMES) ∧
      (0 ≤ (stabRun [missB, missB, missB] ⟨2, none⟩).stableCount ∧
        (stabRun [missB, missB, missB] ⟨2, none⟩).stableCount ≤ LOCK_FRAMES)) :=
  ⟨by decide, stableCount_bounds missB [missB, missB, missB] ⟨2, none⟩ (by decide) (by decide)⟩

/-- Claim C6: whenever the frame is at least as large as the template, the
returned offset is a member of the scan grid, carries its own score and
box, scores no worse than every scanned offset, and scores strictly better
than every offset scanned before it (first-found tie resolution in
row-major order, y outer then x inner, which is the order of scanGrid). -/
theorem findTemplate_argmin_first (f t : Img) (step : ℕ)
    (hw : t.w ≤ f.w) (hh : t.h ≤ f.h) (_htw : 0 < t.w) (_hth : 0 < t.h)
    (_hstep : 0 < step) :
    ∃ l1 l2,
      scanGrid f t step =
        l1 ++ ((findTemplate f t step).x, (findTemplate f t step).y) :: l2 ∧
      (findTemplate f t step).score =
        some (mae f t (findTemplate f t step).x (findTemplate f t step).y) ∧
      (findTemplate f t step).box =
        some ⟨(findTemplate f t step).x, (findTemplate f t step).y, t.w, t.h⟩ ∧
      (∀ q ∈ scanGrid f t step,
        mae f t (findTemplate f t step).x (findTemplate f t step).y ≤ mae f t q.1 q.2) ∧
      (∀ q ∈ l1,
        mae f t (findTemplate f t step).x (findTemplate f t step).y < mae f t q.1 q.2) := by
  rcases foldBest_characterization f t (scanGrid f t step) with
    ⟨hnil, _⟩ | ⟨l1, p, l2, hsplit, hval, hl1, hl2⟩
  · exact absurd hnil (scanGrid_ne_nil f t step hw hh)
  · have hft : findTemplate f t step =
        ⟨p.1, p.2, some (mae f t p.1 p.2), some ⟨p.1, p.2, t.w, t.h⟩⟩ := hval
    refine ⟨l1, l2, ?_, ?_, ?_, ?_, ?_⟩
    · rw [hft]
      simpa using hsplit
    · rw [hft]
    · rw [hft]
    · intro q hq
      rw [hft]
      rw [hsplit] at hq
      rcases List.mem_append.mp hq with hq | hq
      · exact le_of_lt (hl1 q hq)
      · rcases List.mem_cons.mp hq with rfl | hq
        · exact le_refl _
        · exact hl2 q hq
    · intro q hq
      rw [hft]
      exact hl1 q hq

/-- Witness for claim C6 on a concrete 2x2 frame and 1x1 template. -/
theorem findTemplate_argmin_first_witness :
    (cT.w ≤ cF.w ∧ cT.h ≤ cF.h ∧ 0 < cT.w ∧ 0 < cT.h ∧ 0 < 1) ∧
    (∃ l1 l2,
      scanGrid cF cT 1 =
        l1 ++ ((findTemplate cF cT 1).x, (findTemplate cF cT 1).y) :: l2 ∧
      (findTemplate cF cT 1).score =
        some (mae cF cT (findTemplate cF cT 1).x (findTemplate cF cT 1).y) ∧
      (findTemplate cF cT 1).box =
        some ⟨(findTemplate cF cT 1).x, (findTemplate cF cT 1).y, cT.w, cT.h⟩ ∧
      (∀ q ∈ scanGrid cF cT 1,
        mae cF cT (findTemplate cF cT 1).x (findTemplate cF cT 1).y ≤ mae cF cT q.1 q.2) ∧
      (∀ q ∈ l1,
        mae cF cT (findTemplate cF cT 1).x (findTemplate cF cT 1).y < mae cF cT q.1 q.2)) :=
  ⟨⟨by decide, by decide, by decide, by decide, by decide⟩,
    findTemplate_argmin_first cF cT 1 (by decide) (by decide) (by decide) (by decide)
      (by decide)⟩

/-- Claim C7: if the frame holds an exact pixel copy of the template at a
grid-aligned offset and every other scanned window scores strictly above
zero, then the score at that offset is zero and findTemplate returns
exactly that offset with score zero and the corresponding box. -/
theorem findTemplate_exact_copy (f t : Img) (step : ℕ) (x0 y0 : ℕ)
    (_htw : 0 < t.w) (_hth : 0 < t.h) (_hstep : 0 < step)
    (hmem : (x0, y0) ∈ scanGrid f t step)
    (hcopy : ∀ tx < t.w, ∀ ty < t.h,
      f.px ((y0 + ty) * f.w + (x0 + tx)) = t.px (ty * t.w + tx))
    (hothers : ∀ q ∈ scanGrid f t step, q ≠ (x0, y0) → 0 < mae f t q.1 q.2) :
    mae f t x0 y0 = 0 ∧
    (findTemplate f t step).x = x0 ∧ (findTemplate f t step).y = y0 ∧
    (findTemplate f t step).score = some 0 ∧
    (findTemplate f t step).box = some ⟨x0, y0, t.w, t.h⟩ := by
  have h0 := mae_copy_zero f t x0 y0 hcopy
  rcases foldBest_characterization f t (scanGrid f t step) with
    ⟨hnil, _⟩ | ⟨l1, p, l2, hsplit, hval, hl1, hl2⟩
  · rw [hnil] at hmem
    simp at hmem
  · have hft : findTemplate f t step =
        ⟨p.1, p.2, some (mae f t p.1 p.2), some ⟨p.1, p.2, t.w, t.h⟩⟩ := hval
    have hpmem : p ∈ scanGrid f t step := by
      rw [hsplit]
      simp
    have hple : mae f t p.1 p.2 ≤ 0 := by
      rw [hsplit] at hmem
      rcases List.mem_append.mp hmem with hq | hq
      · exact le_of_lt (lt_of_lt_of_le (hl1 _ hq) (le_of_eq h0))
      · rcases List.mem_cons.mp hq with heq | hq
        · rw [← heq]
          exact le_of_eq h0
        · exact le_trans (hl2 _ hq) (le_of_eq h0)
    have hpz : mae f t p.1 p.2 = 0 :=
      le_antisymm hple (mae_nonneg f t p.1 p.2)
    have hpeq : p = (x0, y0) := by
      by_contra hne
      exact absurd hpz (ne_of_gt (hothers p hpmem hne))
    subst hpeq
    rw [hft]
    exact ⟨h0, rfl, rfl, by rw [hpz], rfl⟩

/-- Witness for claim C7: the copy of cT sits at (1, 1) in cF and all other
windows score 7. -/
theorem findTemplate_exact_copy_witness :
    ((1, 1) ∈ scanGrid cF cT 1 ∧
      (∀ q ∈ scanGrid cF cT 1, q ≠ (1, 1) → 0 < mae cF cT q.1 q.2)) ∧
    (mae cF cT 1 1 = 0 ∧
      (findTemplate cF cT 1).x = 1 ∧ (findTemplate cF cT 1).y = 1 ∧
      (findTemplate cF cT 1).score = some 0 ∧
      (findTemplate cF cT 1).box = some ⟨1, 1, cT.w, cT.h⟩) :=
  ⟨⟨by decide, mae_cFcT_pos⟩,
    findTemplate_exact_copy cF cT 1 1 1 (by decide) (by decide) (by decide) (by decide)
      (by decide) mae_cFcT_pos⟩

/-- Claim C9: on every tick, lastBox becomes the match box exactly on a hit
(score present and strictly below the threshold) and is left unchanged on a
miss (only the counter moves), so a stale box persists across misses. -/
theorem stabTick_lastBox_update (m : Best) (st : DetState) :
    (stabTick m st).lastBox = (if isHit m then m.box else st.lastBox) ∧
    (stabTick m st).stableCount =
      (if isHit m then min LOCK_FRAMES (st.stableCount + 1)
        else max 0 (st.stableCount - 1)) := by
  rw [stabTick]
  split <;> simp_all

/-- Claim C10: whenever findTemplate returns a non-null box, that box uses
the template dimensions, its offset lies within the valid window range,
both coordinates are multiples of the stride, and the recorded score is a
finite nonnegative rational. -/
theorem findTemplate_box_inbounds (f t : Img) (step : ℕ) (b : Box)
    (_htw : 0 < t.w) (_hth : 0 < t.h) (_hstep : 0 < step)
    (hbox : (findTemplate f t step).box = some b) :
    b.w = t.w ∧ b.h = t.h ∧
    (b.x : ℤ) ≤ (f.w : ℤ) - (t.w : ℤ) ∧ (b.y : ℤ) ≤ (f.h : ℤ) - (t.h : ℤ) ∧
    step ∣ b.x ∧ step ∣ b.y ∧
    ∃ q : ℚ, (findTemplate f t step).score = some q ∧ 0 ≤ q := by
  rcases foldBest_characterization f t (scanGrid f t step) with
    ⟨_, hinit⟩ | ⟨l1, p, l2, hsplit, hval, _, _⟩
  · have hnone : (findTemplate f t step).box = none := by
      rw [show findTemplate f t step = initBest from hinit]
      rfl
    rw [hbox] at hnone
    simp at hnone
  · have hft : findTemplate f t step =
        ⟨p.1, p.2, some (mae f t p.1 p.2), some ⟨p.1, p.2, t.w, t.h⟩⟩ := hval
    have hb : b = ⟨p.1, p.2, t.w, t.h⟩ := by
      rw [hft] at hbox
      simpa using hbox.symm
    have hpmem : p ∈ scanGrid f t step := by
      rw [hsplit]
      simp
    have hmem := mem_scanGrid f t step p hpmem
    subst hb
    exact ⟨rfl, rfl, hmem.1, hmem.2.1, hmem.2.2.1, hmem.2.2.2,
      mae f t p.1 p.2, by rw [hft], mae_nonneg f t p.1 p.2⟩

/-- Witness for claim C10 at the concrete frame and template. -/
theorem findTemplate_box_inbounds_witness :
    ((findTemplate cF cT 1).box = some ⟨1, 1, 1, 1⟩) ∧
    ((⟨1, 1, 1, 1⟩ : Box).w = cT.w ∧ (⟨1, 1, 1, 1⟩ : Box).h = cT.h ∧
      ((⟨1, 1, 1, 1⟩ : Box).x : ℤ) ≤ (cF.w : ℤ) - (cT.w : ℤ) ∧
      ((⟨1, 1, 1, 1⟩ : Box).y : ℤ) ≤ (cF.h : ℤ) - (cT.h : ℤ) ∧
      1 ∣ (⟨1, 1, 1, 1⟩ : Box).x ∧ 1 ∣ (⟨1, 1, 1, 1⟩ : Box).y ∧
      ∃ q : ℚ, (findTemplate cF cT 1).score = some q ∧ 0 ≤ q) :=
  ⟨by rw [findTemplate_cFcT],
    findTemplate_box_inbounds cF cT 1 ⟨1, 1, 1, 1⟩ (by decide) (by decide) (by decide)
      (by rw [findTemplate_cFcT])⟩

end App
